import Mathlib

/-!
# Jazz-Loop: verification of the generative performance engine

A shallow embedding of the Jazz-Loop repository (an interactive gesture-driven
generative music and visuals instrument) together with proofs and refutations of
the testable properties stated in its specification.

Embedded source:
* `src/services/audioEngine.ts` — the `AudioEngine` class: genre profiles,
  the backing-track loop, the gesture trigger gates for both hands, the output
  level meter conversion, and `setGlobalEnergy`.
* `src/components/JazzCanvas.tsx` — the render-side state: the smoothed energy
  scalar, the flow-field (`LiquidParticle`) wrap and max-speed rules, the
  steering `Particle.checkEdges` wrap, and the electronic-mode connection graph.
* `src/unnamed/part_000` — the hand-results callback feeding
  `setGlobalEnergy`.

JavaScript numbers are modelled as `ℚ` (exact arithmetic) except where the code
computes square roots or powers (`Math.pow`, `p.dist`), which are modelled in
`ℝ`.  State mutation is modelled by explicit state passing; calls into the
synthesis backend (note triggers, parameter ramps, draw-callback scheduling)
are modelled as emitted command lists.
-/

/-- Performance modes, from `types` (`GameGenre`). -/
inductive GameGenre
  | JAZZ
  | ELECTRONIC
  | FUNK
deriving DecidableEq, Repr

/-! ## Scale tables (`audioEngine.ts` lines 5-16) -/

def JAZZ_SCALE_RIGHT : List String :=
  ["C5", "D5", "Eb5", "F5", "G5", "A5", "Bb5", "C6", "Eb6", "F6"]

def JAZZ_SCALE_LEFT : List String :=
  ["C3", "Eb3", "F3", "G3", "Bb3", "C4", "Eb4", "F4", "G4", "Bb4", "C5"]

def JAZZ_BASS : List String :=
  ["C2", "Eb2", "F2", "Gb2", "G2", "Bb2", "C3"]

def ELECTRONIC_SCALE_RIGHT : List String :=
  ["E4", "G4", "A4", "B4", "D5", "E5", "G5", "A5", "B5", "D6", "E6"]

def ELECTRONIC_SCALE_LEFT : List String :=
  ["E3", "G3", "A3", "B3", "D4", "E4"]

def ELECTRONIC_BASS : List String :=
  ["E2", "E2", "G2", "E2", "A2", "E2", "B2", "D2"]

def FUNK_SCALE_RIGHT : List String :=
  ["E4", "G4", "A4", "B4", "D5", "E5", "G5", "A5", "B5", "D6"]

def FUNK_SCALE_LEFT : List String :=
  ["E3", "G3", "A3", "B3", "D4", "E4"]

/-! ## Engine state

The mutable fields of the `AudioEngine` class.  Instrument object references
(`rightSynth`, `leftSynth`, `leftEffect`, `drumHiHat`) are modelled by presence
flags, which is all the control flow inspects (null checks).  The Tone.js
transport, being started/stopped and repositioned by the engine, is folded into
the state as position/origin/running fields. -/

structure EngineState where
  currentGenre : GameGenre
  isInitialized : Bool
  hasRightSynth : Bool
  hasLeftSynth : Bool
  hasLeftEffect : Bool
  hasHiHat : Bool
  lastRightTime : ℚ
  lastLeftTime : ℚ
  lastLeftNoteIndex : ℤ
  loopCounter : ℕ
  bpm : ℚ
  swing : ℚ
  transportPosition : ℚ
  transportOrigin : ℚ
  transportRunning : Bool
deriving DecidableEq, Repr

/-- Field initializers of the `AudioEngine` class (lines 25, 48-52); the
transport starts at Tone.js defaults (stopped, position 0, bpm 120, no swing). -/
def initialEngineState : EngineState :=
  { currentGenre := .JAZZ
    isInitialized := false
    hasRightSynth := false
    hasLeftSynth := false
    hasLeftEffect := false
    hasHiHat := false
    lastRightTime := 0
    lastLeftTime := 0
    lastLeftNoteIndex := -1
    loopCounter := 0
    bpm := 120
    swing := 0
    transportPosition := 0
    transportOrigin := 0
    transportRunning := false }

/-- `disposeInstruments` (lines 117-135): every instrument/effect reference is
disposed and nulled. -/
def disposeInstruments (st : EngineState) : EngineState :=
  { st with
    hasRightSynth := false
    hasLeftSynth := false
    hasLeftEffect := false
    hasHiHat := false }

/-- `setupJazz` (lines 141-192): bpm 120, swing 0.6, constructs right synth,
left synth + filter effect, bass, hi-hat, kick. -/
def setupJazz (st : EngineState) : EngineState :=
  { st with
    bpm := 120
    swing := 6/10
    hasRightSynth := true
    hasLeftSynth := true
    hasLeftEffect := true
    hasHiHat := true }

/-- `setupElectronic` (lines 194-238): bpm 135, swing 0. -/
def setupElectronic (st : EngineState) : EngineState :=
  { st with
    bpm := 135
    swing := 0
    hasRightSynth := true
    hasLeftSynth := true
    hasLeftEffect := true
    hasHiHat := true }

/-- `setupFunk` (lines 240-325): bpm 112, swing 0.1. -/
def setupFunk (st : EngineState) : EngineState :=
  { st with
    bpm := 112
    swing := 1/10
    hasRightSynth := true
    hasLeftSynth := true
    hasLeftEffect := true
    hasHiHat := true }

/-- `loadGenre` (lines 94-115).  `now` is the audio-clock instant of the load
(`Tone.Transport.start()` starts the transport from position 0 at that
instant). -/
def loadGenre (st : EngineState) (genre : GameGenre) (now : ℚ) : EngineState :=
  -- `if (!this.isInitialized) await this.initialize();`
  let st1 := { st with isInitialized := true }
  let st2 := { st1 with currentGenre := genre }
  -- `Tone.Transport.stop(); Tone.Transport.cancel(); Tone.Transport.position = 0;`
  let st3 := { st2 with transportRunning := false, transportPosition := 0 }
  -- lines 102-105
  let st4 := { st3 with
    lastRightTime := 0
    lastLeftTime := 0
    lastLeftNoteIndex := -1
    loopCounter := 0 }
  let st5 := disposeInstruments st4
  let st6 :=
    match genre with
    | .JAZZ => setupJazz st5
    | .ELECTRONIC => setupElectronic st5
    | .FUNK => setupFunk st5
  -- `this.startBackingTrack(); Tone.Transport.start();`
  { st6 with transportRunning := true, transportOrigin := now }

/-! ## Level meter (`getEnergy`, lines 71-80)

`Tone.Meter.getValue()` yields either a decibel number or (for multi-channel
meters) an array; `Tone.dbToGain(db)` is `Math.pow(10, db / 20)`. -/

/-- A meter reading: a decibel number, or a non-numeric (array) value. -/
inductive MeterValue
  | db (x : ℝ)
  | nonNumeric
deriving Inhabited

/-- `Tone.dbToGain`: `Math.pow(10, db / 20)`. -/
noncomputable def dbToGain (db : ℝ) : ℝ := (10 : ℝ) ^ (db / 20)

/-- `getEnergy` (lines 71-80): `0` when the meter is absent, `dbToGain` of a
numeric reading, `0` for a non-numeric reading. -/
noncomputable def getEnergy (meter : Option MeterValue) : ℝ :=
  match meter with
  | none => 0
  | some (.db x) => dbToGain x
  | some .nonNumeric => 0

/-! ## Gesture interaction (`updateRightHand` lines 431-480, `updateLeftHand`
lines 482-538)

`Tone.now()` and `Tone.Transport.nextSubdivision("16n")` are inputs read from
the external audio clock; they are passed in as the `now` and `nextDiv`
arguments.  Calls into the synthesis backend are emitted as `Cmd`s.  The
`noteCallback` is modelled as installed (the canvas installs it via
`onNoteTriggered` at session start). -/

/-- A command issued to the synthesis backend / draw scheduler. -/
inductive Cmd
  /-- `synth.set({ detune: cents })` -/
  | setDetune (cents : ℚ)
  /-- `synth.detune.rampTo(cents, seconds)` -/
  | rampDetune (cents : ℚ) (seconds : ℚ)
  /-- `filter.frequency.rampTo(hz, seconds)` -/
  | rampFilterFreq (hz : ℚ) (seconds : ℚ)
  /-- `synth.triggerAttackRelease(pitch, duration, time)`; the pitch is `none`
  when the scale lookup was out of range (JavaScript `undefined`). -/
  | note (pitch : Option String) (dur : String) (time : ℚ)
  /-- `Tone.Draw.schedule(() => noteCallback(kind, x, y), time)` -/
  | draw (kind : String) (x : ℚ) (y : ℚ) (time : ℚ)
deriving DecidableEq, Repr

/-- `const normalizedY = 1 - Math.max(0, Math.min(1, y));`
`const noteIndex = Math.floor(normalizedY * scale.length);` (lines 462-463 and
515-516). -/
def noteIndex (y : ℚ) (len : ℕ) : ℤ := ⌊(1 - max 0 (min 1 y)) * len⌋

/-- `scale[i]`: JavaScript indexing, `undefined` (here `none`) out of range. -/
def scaleNote (scale : List String) (i : ℤ) : Option String :=
  if 0 ≤ i then scale[i.toNat]? else none

/-- Right-hand scale selection (lines 458-460). -/
def rightScale (g : GameGenre) : List String :=
  match g with
  | .ELECTRONIC => ELECTRONIC_SCALE_RIGHT
  | .FUNK => FUNK_SCALE_RIGHT
  | .JAZZ => JAZZ_SCALE_RIGHT

/-- Left-hand scale selection (lines 511-513). -/
def leftScale (g : GameGenre) : List String :=
  match g with
  | .ELECTRONIC => ELECTRONIC_SCALE_LEFT
  | .FUNK => FUNK_SCALE_LEFT
  | .JAZZ => JAZZ_SCALE_LEFT

/-- `const triggerTime = Math.max(now, nextDiv);` (lines 467-469, 519-521). -/
def computedFireTime (now nextDiv : ℚ) : ℚ := max now nextDiv

/-- `updateRightHand(y, x, trigger, squeeze)` (lines 431-480).  The per-genre
automation block (lines 435-455) always runs; the `instanceof` tests match the
synth each genre's setup constructs.  The trigger block models
`triggerAttackRelease` as returning normally. -/
def updateRightHand (st : EngineState) (y x : ℚ) (trigger : Bool) (squeeze : ℚ)
    (now nextDiv : ℚ) : EngineState × List Cmd :=
  -- `if (!this.rightSynth || !this.isInitialized) return;`
  if ¬(st.hasRightSynth ∧ st.isInitialized) then (st, []) else
  let autoCmds : List Cmd :=
    match st.currentGenre with
    | .JAZZ => [.setDetune (squeeze * -50)]
    | .ELECTRONIC => [.rampDetune (squeeze * -1200) (5/100)]
    | .FUNK => [.setDetune (squeeze * -500)]
  if trigger then
    let scale := rightScale st.currentGenre
    let note := scaleNote scale (noteIndex y scale.length)
    let triggerTime := computedFireTime now nextDiv
    if triggerTime > st.lastRightTime then
      ({ st with lastRightTime := triggerTime },
        autoCmds ++ [.note note "8n" triggerTime, .draw "LEAD" x y triggerTime])
    else (st, autoCmds)
  else (st, autoCmds)

/-- Whether the jazz/electronic/funk profile's left synth is a `PolySynth`
(line 525's `instanceof` test, as constructed by the setups: jazz uses a
`MonoSynth`, the others `PolySynth`s). -/
def leftIsPoly (g : GameGenre) : Bool :=
  match g with
  | .JAZZ => false
  | .ELECTRONIC => true
  | .FUNK => true

/-- `updateLeftHand(y, x, trigger, squeeze)` (lines 482-538). -/
def updateLeftHand (st : EngineState) (y x : ℚ) (trigger : Bool) (squeeze : ℚ)
    (now nextDiv : ℚ) : EngineState × List Cmd :=
  -- `if (!this.leftSynth || !this.leftEffect || !this.isInitialized) return;`
  if ¬(st.hasLeftSynth ∧ st.hasLeftEffect ∧ st.isInitialized) then (st, []) else
  let autoCmds : List Cmd :=
    match st.currentGenre with
    | .JAZZ =>
        [.rampDetune (squeeze * -200) (1/10),
         .rampFilterFreq (500 + x * 3500) (1/10)]
    | .ELECTRONIC => [.rampFilterFreq (200 + (1 - squeeze) * 8000) (1/10)]
    | .FUNK => [.rampFilterFreq (300 + (1 - squeeze) * 3200) (5/100)]
  if trigger then
    let scale := leftScale st.currentGenre
    let idx := noteIndex y scale.length
    let note := scaleNote scale idx
    let triggerTime := computedFireTime now nextDiv
    if triggerTime > st.lastLeftTime then
      ({ st with lastLeftTime := triggerTime, lastLeftNoteIndex := idx },
        autoCmds ++
          [.note note (if leftIsPoly st.currentGenre then "16n" else "8n") triggerTime,
           .draw "RHYTHM" x y triggerTime])
    else (st, autoCmds)
  else (st, autoCmds)

/-- Modelled from the spec: `Tone.Transport.nextSubdivision("16n")` is external
library code (the Tone.js transport, not part of this repository); spec §4.1
gives its contract: "`nextSubdivisionTime(now) → t` returns the smallest time
`≥ now` that lands on a step boundary".  With subdivision length `s`, that is
the smallest multiple of `s` at or after `now`. -/
def nextSubdivisionTime (s now : ℚ) : ℚ := s * ⌈now / s⌉

/-- One hand-tracking callback's worth of arguments to a hand update. -/
structure HandInput where
  y : ℚ
  x : ℚ
  trigger : Bool
  squeeze : ℚ
  now : ℚ
  nextDiv : ℚ
deriving DecidableEq, Repr

/-- A sequence of `updateRightHand` calls, threading the engine state and
collecting all backend commands in order. -/
def runRightHand (st : EngineState) (ins : List HandInput) : EngineState × List Cmd :=
  match ins with
  | [] => (st, [])
  | i :: rest =>
      let r := updateRightHand st i.y i.x i.trigger i.squeeze i.now i.nextDiv
      let rr := runRightHand r.1 rest
      (rr.1, r.2 ++ rr.2)

/-- A sequence of `updateLeftHand` calls. -/
def runLeftHand (st : EngineState) (ins : List HandInput) : EngineState × List Cmd :=
  match ins with
  | [] => (st, [])
  | i :: rest =>
      let r := updateLeftHand st i.y i.x i.trigger i.squeeze i.now i.nextDiv
      let rr := runLeftHand r.1 rest
      (rr.1, r.2 ++ rr.2)

/-- The fire times of the note commands in a command list. -/
def noteTimes (cs : List Cmd) : List ℚ :=
  cs.filterMap fun c =>
    match c with
    | .note _ _ t => some t
    | _ => none

/-- Is this command a note trigger on a synth? -/
def isNoteCmd (c : Cmd) : Bool :=
  match c with
  | .note _ _ _ => true
  | _ => false

/-- Is this command a scheduled visual (draw) event? -/
def isDrawCmd (c : Cmd) : Bool :=
  match c with
  | .draw _ _ _ _ => true
  | _ => false

/-! ## Backing-track loop (`startBackingTrack`, lines 331-425)

The `Tone.Loop` body runs once per 16th-note tick.  Its per-tick inputs are the
state of the audio context (`Tone.context.state`, i.e. whether the backend is
actively running), the presence of the hi-hat instrument (the `!this.drumHiHat`
stop guard) and the values drawn from `Math.random()` — `r1` for the random
bass-note pick, `r2` for the funk open-hat coin flip.  The backend calls made
by one tick are collected as `LoopEvent`s. -/

/-- A backend call made by the backing-track loop body. -/
inductive LoopEvent
  /-- `bassSynth.triggerAttackRelease(note, dur, time, vel)`; default velocity 1. -/
  | bass (note : Option String) (dur : String) (vel : ℚ)
  /-- `drumHiHat.triggerAttackRelease(note, dur, time, vel)`. -/
  | hihat (note : String) (dur : String) (vel : ℚ)
  /-- `drumHiHat.triggerAttackRelease(first, time, vel)` — the three-argument
  call shape used by the electronic and funk branches. -/
  | hihatNoNote (first : String) (vel : ℚ)
  /-- `drumKick.triggerAttackRelease(note, dur, time, vel)`. -/
  | kick (note : String) (dur : String) (vel : ℚ)
  /-- `drumSnare.triggerAttackRelease(dur, time, vel)`. -/
  | snare (dur : String) (vel : ℚ)
  /-- `Tone.Draw.schedule(() => noteCallback(kind, x, y), time)`. -/
  | drawNote (kind : String) (x : ℚ) (y : ℚ)
  /-- `Tone.Draw.schedule(() => beatCallback(kind), time)`. -/
  | drawBeat (kind : String)
deriving DecidableEq, Repr

/-- `table[Math.floor(Math.random() * table.length)]` with random draw `r`. -/
def randNote (table : List String) (r : ℚ) : Option String :=
  table[(⌊r * table.length⌋).toNat]?

/-- The jazz branch of the loop body (lines 342-351). -/
def jazzEvents (r1 : ℚ) (step : ℕ) : List LoopEvent :=
  (if step % 4 = 0 then
    [.bass (randNote JAZZ_BASS r1) "4n" 1,
     .drawNote "BASS" (1/2) 1,
     .hihat "C5" "32n" 1]
   else []) ++
  (if step = 6 ∨ step = 14 then [.hihat "C5" "32n" (1/2)] else [])

/-- The electronic branch of the loop body (lines 353-367). -/
def electronicEvents (r1 : ℚ) (step : ℕ) : List LoopEvent :=
  (if step % 2 = 0 then
    [.bass (randNote ELECTRONIC_BASS r1) "8n" 1,
     .drawNote "BASS" (1/2) 1,
     .hihatNoNote "32n" (if step % 4 = 0 then 1 else 1/2)]
   else []) ++
  (if step = 0 ∨ step = 8 ∨ step = 10 then
    [.kick "C1" "16n" 1, .drawBeat "KICK"]
   else []) ++
  (if step = 4 ∨ step = 12 then [.snare "16n" 1, .drawBeat "SNARE"] else [])

/-- The funk branch of the loop body (lines 369-415); `r2` is the
`Math.random()` draw for the occasional open hat. -/
def funkEvents (r2 : ℚ) (step : ℕ) : List LoopEvent :=
  -- slap bass pattern (root "E2", octave "E3", fifth "B2", flatSeven "D3")
  (if step = 0 then [.bass (some "E2") "16n" 1]
   else if step = 3 then [.bass (some "E2") "16n" (7/10)]
   else if step = 6 then [.bass (some "E3") "16n" (9/10)]
   else if step = 8 then [.bass (some "D3") "16n" (8/10)]
   else if step = 11 then [.bass (some "E2") "16n" (6/10)]
   else if step = 14 then [.bass (some "B2") "16n" (8/10)]
   else []) ++
  (if step = 0 ∨ step = 6 ∨ step = 14 then [.drawNote "BASS" (1/2) 1] else []) ++
  (if step = 0 then [.kick "C1" "16n" 1]
   else if step = 7 then [.kick "C1" "16n" (8/10)]
   else if step = 10 then [.kick "C1" "16n" (7/10)]
   else []) ++
  (if step = 0 ∨ step = 10 then [.drawBeat "KICK"] else []) ++
  (if step = 4 ∨ step = 12 then [.snare "16n" 1, .drawBeat "SNARE"]
   else if step = 15 then [.snare "32n" (3/10)]
   else []) ++
  (if step = 14 ∧ r2 > 7/10 then [.hihatNoNote "8n" (8/10)]
   else [.hihatNoNote "32n"
          (if step % 4 = 0 then 1 else if step % 2 = 0 then 6/10 else 3/10)])

/-- The pattern entries one executed tick fires for its step. -/
def patternEvents (g : GameGenre) (r1 r2 : ℚ) (step : ℕ) : List LoopEvent :=
  match g with
  | .JAZZ => jazzEvents r1 step
  | .ELECTRONIC => electronicEvents r1 step
  | .FUNK => funkEvents r2 step

/-- One invocation of the loop body (lines 332-422): returns the new
`loopCounter` and, when the tick executed, the step it fired with its events.
The early returns — `if (!this.drumHiHat) return;` and
`if (Tone.context.state !== 'running') return;` — both exit before the genre
branches and before the `this.loopCounter++` at line 418. -/
def loopTick (g : GameGenre) (hasHiHat running : Bool) (r1 r2 : ℚ) (c : ℕ) :
    ℕ × Option (ℕ × List LoopEvent) :=
  if !hasHiHat then (c, none)
  else if !running then (c, none)
  else (c + 1, some (c % 16, patternEvents g r1 r2 (c % 16)))

/-- The per-tick inputs of one loop-body invocation. -/
structure TickInput where
  running : Bool
  r1 : ℚ
  r2 : ℚ
deriving DecidableEq, Repr

/-- A sequence of loop ticks, threading the counter and collecting the
(step, events) firings of the executed ticks in order. -/
def runLoop (g : GameGenre) (hasHiHat : Bool) (ticks : List TickInput) (c : ℕ) :
    ℕ × List (ℕ × List LoopEvent) :=
  match ticks with
  | [] => (c, [])
  | t :: rest =>
      let r := loopTick g hasHiHat t.running t.r1 t.r2 c
      let rr := runLoop g hasHiHat rest r.1
      (rr.1, (match r.2 with | some f => [f] | none => []) ++ rr.2)

/-! ## `setGlobalEnergy` (line 543) and its caller

`public setGlobalEnergy(e: number) {}` — an empty body.  The hand-results
callback (`src/unnamed/part_000`, line 95) calls it every camera frame with
`Math.min(totalEnergy * 15, 1)`. -/

/-- The whole observable audio-engine state: the class fields plus the meter
it reads energy from. -/
structure AudioEngineFull where
  engine : EngineState
  meter : Option MeterValue

/-- `setGlobalEnergy(e)` (line 543): the body is empty. -/
def setGlobalEnergy (_e : ℚ) (s : AudioEngineFull) : AudioEngineFull := s

/-- The argument the hand-results callback passes:
`Math.min(totalEnergy * 15, 1)` (`src/unnamed/part_000` line 95). -/
def handGlobalEnergyArg (totalEnergy : ℚ) : ℚ := min (totalEnergy * 15) 1

/-! ## Render-side state (`JazzCanvas.tsx`)

The draw loop's smoothed energy scalar (line 496), the flow-field
`LiquidParticle` max-speed and wrap rules (lines 608-617), the steering
`Particle.checkEdges` wrap (lines 330-335), and the electronic-mode connection
graph (lines 804-836). -/

/-- `p5.lerp(start, stop, amt) = start + (stop - start) * amt`. -/
def lerp (start stop amt : ℚ) : ℚ := start + (stop - start) * amt

/-- `smoothedAudio` across draw ticks:  `let smoothedAudio = 0` at sketch
init (here generalized to a start value `s0`), then once per tick
`smoothedAudio = p.lerp(smoothedAudio, rawEnergy, 0.15)` (line 496), where
`raw n` is the `audioEngine.getEnergy()` reading consumed by tick `n`. -/
def smoothedAudioSeq (s0 : ℚ) (raw : ℕ → ℚ) : ℕ → ℚ
  | 0 => s0
  | n + 1 => lerp (smoothedAudioSeq s0 raw n) (raw n) (15/100)

/-- `this.maxSpeed = this.baseMaxSpeed * (1 + audio * 3)`
(`LiquidParticle.update`, line 608). -/
def liquidMaxSpeed (baseMaxSpeed audio : ℚ) : ℚ := baseMaxSpeed * (1 + audio * 3)

/-- A steering particle's position and velocity (the fields `checkEdges`
reads and writes, plus the velocity it must leave alone). -/
structure SteerParticle where
  posX : ℚ
  posY : ℚ
  velX : ℚ
  velY : ℚ
deriving DecidableEq, Repr

/-- `Particle.checkEdges` (lines 330-335):
`if (x > width) x = 0; else if (x < 0) x = width;` and the same for `y`. -/
def checkEdges (w h : ℚ) (pt : SteerParticle) : SteerParticle :=
  { pt with
    posX := if pt.posX > w then 0 else if pt.posX < 0 then w else pt.posX
    posY := if pt.posY > h then 0 else if pt.posY < 0 then h else pt.posY }

/-- The fields of a `LiquidParticle` touched by the wrap block. -/
structure LiquidParticleState where
  posX : ℚ
  posY : ℚ
  prevX : ℚ
  prevY : ℚ
  velX : ℚ
  velY : ℚ
  maxSpeed : ℚ
  baseMaxSpeed : ℚ
deriving DecidableEq, Repr

/-- Line 614: `if (this.pos.x > p.width) { this.pos.x = 0; this.prevPos.x = this.pos.x; }` -/
def liquidWrapXHigh (w : ℚ) (pt : LiquidParticleState) : LiquidParticleState :=
  if pt.posX > w then { pt with posX := 0, prevX := 0 } else pt

/-- Line 615: `if (this.pos.x < 0) { this.pos.x = p.width; this.prevPos.x = this.pos.x; }` -/
def liquidWrapXLow (w : ℚ) (pt : LiquidParticleState) : LiquidParticleState :=
  if pt.posX < 0 then { pt with posX := w, prevX := w } else pt

/-- Line 616: the same for `y` against `p.height`. -/
def liquidWrapYHigh (h : ℚ) (pt : LiquidParticleState) : LiquidParticleState :=
  if pt.posY > h then { pt with posY := 0, prevY := 0 } else pt

/-- Line 617. -/
def liquidWrapYLow (h : ℚ) (pt : LiquidParticleState) : LiquidParticleState :=
  if pt.posY < 0 then { pt with posY := h, prevY := h } else pt

/-- The wrap block at the end of `LiquidParticle.update` (lines 613-617):
the four `if` statements in source order. -/
def liquidWrap (w h : ℚ) (pt : LiquidParticleState) : LiquidParticleState :=
  liquidWrapYLow h (liquidWrapYHigh h (liquidWrapXLow w (liquidWrapXHigh w pt)))

/-- The proximity tag of a `NeuralNode` (`'neutral' | 'left' | 'right'`). -/
inductive NodeType
  | left
  | right
  | neutral
deriving DecidableEq, Repr, Inhabited

/-- An electronic-mode graph node: the position read by the connection pass,
plus its tag. -/
structure NeuralNode where
  posX : ℝ
  posY : ℝ
  ty : NodeType
deriving Inhabited

/-- `p.dist(x1, y1, x2, y2)`: the Euclidean distance. -/
noncomputable def nodeDist (a b : NeuralNode) : ℝ :=
  Real.sqrt ((b.posX - a.posX) ^ 2 + (b.posY - a.posY) ^ 2)

/-- `let connectDist = 180 + (audio * 100);` (line 811). -/
noncomputable def connectDist (audio : ℝ) : ℝ := 180 + audio * 100

/-- `p5.map(value, start1, stop1, start2, stop2)` (no clamping):
`start2 + (stop2 - start2) * ((value - start1) / (stop1 - start1))`. -/
noncomputable def mapRange (value start1 stop1 start2 stop2 : ℝ) : ℝ :=
  start2 + (stop2 - start2) * ((value - start1) / (stop1 - start1))

/-- `let alpha = p.map(d, 0, connectDist, 100, 0);` (line 814). -/
noncomputable def edgeAlpha (d audio : ℝ) : ℝ := mapRange d 0 (connectDist audio) 100 0

/-- The index pairs visited by the double loop
`for (i = 0; i < n; i++) for (j = i + 1; j < n; j++)` (lines 804-806). -/
def pairIndices (n : ℕ) : List (ℕ × ℕ) :=
  (List.range n).flatMap fun i =>
    ((List.range n).filter fun j => i < j).map fun j => (i, j)

/-- The edges rendered by one frame's connection pass (lines 804-836): for
every visited pair the distance between the two nodes is compared against the
energy-scaled threshold, and a line with the linearly mapped alpha is drawn
when it is strictly below.  Node `i` is only mutated (`n1.update`) after all
pairs `(i, j)` with `j > i` were drawn, and nodes `j > i` are not yet updated
at that point, so every pair comparison reads the frame's initial positions. -/
noncomputable def connectionEdges (nodes : List NeuralNode) (audio : ℝ) :
    List (ℕ × ℕ × ℝ) :=
  (pairIndices nodes.length).filterMap fun ij =>
    if nodeDist (nodes.getD ij.1 default) (nodes.getD ij.2 default) < connectDist audio
    then some (ij.1, ij.2,
      edgeAlpha (nodeDist (nodes.getD ij.1 default) (nodes.getD ij.2 default)) audio)
    else none

/-- Does a rendered edge join nodes `a` and `b` (in either order)? -/
def joinsPair (a b : ℕ) (e : ℕ × ℕ × ℝ) : Bool :=
  (e.1 = a ∧ e.2.1 = b) ∨ (e.1 = b ∧ e.2.1 = a)

/-! ## Concrete instances used by the witness theorems -/

/-- A representative mid-session engine state. -/
def sampleState : EngineState :=
  { currentGenre := .ELECTRONIC
    isInitialized := true
    hasRightSynth := true
    hasLeftSynth := true
    hasLeftEffect := true
    hasHiHat := true
    lastRightTime := 42
    lastLeftTime := 37
    lastLeftNoteIndex := 3
    loopCounter := 25
    bpm := 135
    swing := 0
    transportPosition := 19/2
    transportOrigin := 5
    transportRunning := true }

/-- A freshly loaded jazz state with both trigger clocks at 0. -/
def freshState : EngineState :=
  { sampleState with currentGenre := .JAZZ, lastRightTime := 0, lastLeftTime := 0 }

/-- Two graph nodes at mutual distance 5. -/
noncomputable def twoNodes : List NeuralNode :=
  [{ posX := 0, posY := 0, ty := .neutral }, { posX := 3, posY := 4, ty := .neutral }]

/-! ## Helper lemmas -/

theorem noteTimes_append (a b : List Cmd) :
    noteTimes (a ++ b) = noteTimes a ++ noteTimes b :=
  List.filterMap_append _ _ _

@[simp] theorem liquidWrapYLow_posX (h : ℚ) (pt : LiquidParticleState) :
    (liquidWrapYLow h pt).posX = pt.posX := by
  unfold liquidWrapYLow; split <;> rfl

@[simp] theorem liquidWrapYHigh_posX (h : ℚ) (pt : LiquidParticleState) :
    (liquidWrapYHigh h pt).posX = pt.posX := by
  unfold liquidWrapYHigh; split <;> rfl

@[simp] theorem liquidWrapXHigh_velX (w : ℚ) (pt : LiquidParticleState) :
    (liquidWrapXHigh w pt).velX = pt.velX := by
  unfold liquidWrapXHigh; split <;> rfl

@[simp] theorem liquidWrapXHigh_velY (w : ℚ) (pt : LiquidParticleState) :
    (liquidWrapXHigh w pt).velY = pt.velY := by
  unfold liquidWrapXHigh; split <;> rfl

@[simp] theorem liquidWrapXHigh_maxSpeed (w : ℚ) (pt : LiquidParticleState) :
    (liquidWrapXHigh w pt).maxSpeed = pt.maxSpeed := by
  unfold liquidWrapXHigh; split <;> rfl

@[simp] theorem liquidWrapXHigh_posY (w : ℚ) (pt : LiquidParticleState) :
    (liquidWrapXHigh w pt).posY = pt.posY := by
  unfold liquidWrapXHigh; split <;> rfl

@[simp] theorem liquidWrapXLow_velX (w : ℚ) (pt : LiquidParticleState) :
    (liquidWrapXLow w pt).velX = pt.velX := by
  unfold liquidWrapXLow; split <;> rfl

@[simp] theorem liquidWrapXLow_velY (w : ℚ) (pt : LiquidParticleState) :
    (liquidWrapXLow w pt).velY = pt.velY := by
  unfold liquidWrapXLow; split <;> rfl

@[simp] theorem liquidWrapXLow_maxSpeed (w : ℚ) (pt : LiquidParticleState) :
    (liquidWrapXLow w pt).maxSpeed = pt.maxSpeed := by
  unfold liquidWrapXLow; split <;> rfl

@[simp] theorem liquidWrapXLow_posY (w : ℚ) (pt : LiquidParticleState) :
    (liquidWrapXLow w pt).posY = pt.posY := by
  unfold liquidWrapXLow; split <;> rfl

@[simp] theorem liquidWrapYHigh_velX (h : ℚ) (pt : LiquidParticleState) :
    (liquidWrapYHigh h pt).velX = pt.velX := by
  unfold liquidWrapYHigh; split <;> rfl

@[simp] theorem liquidWrapYHigh_velY (h : ℚ) (pt : LiquidParticleState) :
    (liquidWrapYHigh h pt).velY = pt.velY := by
  unfold liquidWrapYHigh; split <;> rfl

@[simp] theorem liquidWrapYHigh_maxSpeed (h : ℚ) (pt : LiquidParticleState) :
    (liquidWrapYHigh h pt).maxSpeed = pt.maxSpeed := by
  unfold liquidWrapYHigh; split <;> rfl

@[simp] theorem liquidWrapYLow_velX (h : ℚ) (pt : LiquidParticleState) :
    (liquidWrapYLow h pt).velX = pt.velX := by
  unfold liquidWrapYLow; split <;> rfl

@[simp] theorem liquidWrapYLow_velY (h : ℚ) (pt : LiquidParticleState) :
    (liquidWrapYLow h pt).velY = pt.velY := by
  unfold liquidWrapYLow; split <;> rfl

@[simp] theorem liquidWrapYLow_maxSpeed (h : ℚ) (pt : LiquidParticleState) :
    (liquidWrapYLow h pt).maxSpeed = pt.maxSpeed := by
  unfold liquidWrapYLow; split <;> rfl

theorem liquidWrapXHigh_posX_of_gt {w : ℚ} {pt : LiquidParticleState}
    (hx : pt.posX > w) : (liquidWrapXHigh w pt).posX = 0 := by
  unfold liquidWrapXHigh; rw [if_pos hx]

theorem liquidWrapXLow_posX_of_lt {w : ℚ} {pt : LiquidParticleState}
    (hx : pt.posX < 0) (hw : ¬ pt.posX > w) : (liquidWrapXLow w (liquidWrapXHigh w pt)).posX = w := by
  unfold liquidWrapXHigh liquidWrapXLow
  rw [if_neg hw, if_pos hx]

theorem liquidWrapYHigh_posY_of_gt {h : ℚ} {pt : LiquidParticleState}
    (hy : pt.posY > h) : (liquidWrapYHigh h pt).posY = 0 := by
  unfold liquidWrapYHigh; rw [if_pos hy]

theorem liquidWrapYLow_posY_of_lt {h : ℚ} {pt : LiquidParticleState}
    (hy : pt.posY < 0) (hh : ¬ pt.posY > h) : (liquidWrapYLow h (liquidWrapYHigh h pt)).posY = h := by
  unfold liquidWrapYHigh liquidWrapYLow
  rw [if_neg hh, if_pos hy]

theorem liquidWrap_vel (w h : ℚ) (pt : LiquidParticleState) :
    (liquidWrap w h pt).velX = pt.velX ∧ (liquidWrap w h pt).velY = pt.velY ∧
      (liquidWrap w h pt).maxSpeed = pt.maxSpeed := by
  unfold liquidWrap
  simp

theorem liquidWrapX_comp_of_gt {w : ℚ} {pt : LiquidParticleState}
    (hx : pt.posX > w) : (liquidWrapXLow w (liquidWrapXHigh w pt)).posX = 0 := by
  unfold liquidWrapXHigh liquidWrapXLow
  rw [if_pos hx]
  simp

theorem liquidWrapX_comp_in_range {w : ℚ} {pt : LiquidParticleState}
    (h0 : 0 ≤ pt.posX) (hle : pt.posX ≤ w) :
    (liquidWrapXLow w (liquidWrapXHigh w pt)).posX = pt.posX := by
  unfold liquidWrapXHigh liquidWrapXLow
  rw [if_neg (not_lt.mpr hle), if_neg (not_lt.mpr h0)]

theorem liquidWrapY_comp_of_gt {h : ℚ} {pt : LiquidParticleState}
    (hy : pt.posY > h) : (liquidWrapYLow h (liquidWrapYHigh h pt)).posY = 0 := by
  unfold liquidWrapYHigh liquidWrapYLow
  rw [if_pos hy]
  simp

theorem liquidWrapY_comp_in_range {h : ℚ} {pt : LiquidParticleState}
    (h0 : 0 ≤ pt.posY) (hle : pt.posY ≤ h) :
    (liquidWrapYLow h (liquidWrapYHigh h pt)).posY = pt.posY := by
  unfold liquidWrapYHigh liquidWrapYLow
  rw [if_neg (not_lt.mpr hle), if_neg (not_lt.mpr h0)]

/-! ## Claim theorems -/

/-- C8: a flow-field particle whose position exceeds a canvas bound on one
axis is placed by the same tick's edge check exactly at the opposite bound on
that axis — a discontinuous wrap, not a bounce — with its velocity and its
in-bounds other-axis position unchanged.  Stated for both wrap
implementations: `Particle.checkEdges` (lines 330-335) and the wrap block of
`LiquidParticle.update` (lines 613-617). -/
theorem particle_wraparound (w h : ℚ) (pt : SteerParticle) (lq : LiquidParticleState) :
    ((checkEdges w h pt).velX = pt.velX ∧ (checkEdges w h pt).velY = pt.velY) ∧
    (pt.posX > w → (checkEdges w h pt).posX = 0) ∧
    (0 ≤ w → pt.posX < 0 → (checkEdges w h pt).posX = w) ∧
    (0 ≤ pt.posX → pt.posX ≤ w → (checkEdges w h pt).posX = pt.posX) ∧
    (pt.posY > h → (checkEdges w h pt).posY = 0) ∧
    (0 ≤ h → pt.posY < 0 → (checkEdges w h pt).posY = h) ∧
    (0 ≤ pt.posY → pt.posY ≤ h → (checkEdges w h pt).posY = pt.posY) ∧
    ((liquidWrap w h lq).velX = lq.velX ∧ (liquidWrap w h lq).velY = lq.velY ∧
      (liquidWrap w h lq).maxSpeed = lq.maxSpeed) ∧
    (lq.posX > w → (liquidWrap w h lq).posX = 0) ∧
    (0 ≤ w → lq.posX < 0 → (liquidWrap w h lq).posX = w) ∧
    (0 ≤ lq.posX → lq.posX ≤ w → (liquidWrap w h lq).posX = lq.posX) ∧
    (lq.posY > h → (liquidWrap w h lq).posY = 0) ∧
    (0 ≤ h → lq.posY < 0 → (liquidWrap w h lq).posY = h) ∧
    (0 ≤ lq.posY → lq.posY ≤ h → (liquidWrap w h lq).posY = lq.posY) := by
  refine ⟨⟨rfl, rfl⟩, ?_, ?_, ?_, ?_, ?_, ?_, liquidWrap_vel w h lq, ?_, ?_, ?_, ?_, ?_, ?_⟩
  · intro hx
    show (if pt.posX > w then 0 else if pt.posX < 0 then w else pt.posX) = 0
    rw [if_pos hx]
  · intro hw hx
    show (if pt.posX > w then 0 else if pt.posX < 0 then w else pt.posX) = w
    rw [if_neg (by linarith : ¬ pt.posX > w), if_pos hx]
  · intro h0 hle
    show (if pt.posX > w then 0 else if pt.posX < 0 then w else pt.posX) = pt.posX
    rw [if_neg (not_lt.mpr hle), if_neg (not_lt.mpr h0)]
  · intro hy
    show (if pt.posY > h then 0 else if pt.posY < 0 then h else pt.posY) = 0
    rw [if_pos hy]
  · intro hh hy
    show (if pt.posY > h then 0 else if pt.posY < 0 then h else pt.posY) = h
    rw [if_neg (by linarith : ¬ pt.posY > h), if_pos hy]
  · intro h0 hle
    show (if pt.posY > h then 0 else if pt.posY < 0 then h else pt.posY) = pt.posY
    rw [if_neg (not_lt.mpr hle), if_neg (not_lt.mpr h0)]
  · intro hx
    have : (liquidWrap w h lq).posX = (liquidWrapXLow w (liquidWrapXHigh w lq)).posX := by
      unfold liquidWrap; simp
    rw [this, liquidWrapX_comp_of_gt hx]
  · intro hw hx
    have : (liquidWrap w h lq).posX = (liquidWrapXLow w (liquidWrapXHigh w lq)).posX := by
      unfold liquidWrap; simp
    rw [this, liquidWrapXLow_posX_of_lt hx (by linarith : ¬ lq.posX > w)]
  · intro h0 hle
    have : (liquidWrap w h lq).posX = (liquidWrapXLow w (liquidWrapXHigh w lq)).posX := by
      unfold liquidWrap; simp
    rw [this, liquidWrapX_comp_in_range h0 hle]
  · intro hy
    have hy' : (liquidWrapXLow w (liquidWrapXHigh w lq)).posY > h := by simpa using hy
    exact liquidWrapY_comp_of_gt hy'
  · intro hh hy
    have hy' : (liquidWrapXLow w (liquidWrapXHigh w lq)).posY < 0 := by simpa using hy
    have hng : ¬ (liquidWrapXLow w (liquidWrapXHigh w lq)).posY > h := by
      simpa using (by linarith : ¬ lq.posY > h)
    have := liquidWrapYLow_posY_of_lt hy' hng
    exact this
  · intro h0 hle
    have h0' : 0 ≤ (liquidWrapXLow w (liquidWrapXHigh w lq)).posY := by simpa using h0
    have hle' : (liquidWrapXLow w (liquidWrapXHigh w lq)).posY ≤ h := by simpa using hle
    have := liquidWrapY_comp_in_range h0' hle'
    rw [liquidWrap, this]
    simp

/-- C8 witness: a concrete 640 × 480 canvas; a steering particle beyond the
right edge reappears at `x = 0` with velocity intact, and a liquid particle
below the bottom edge reappears at `y = 0`. -/
theorem particle_wraparound_witness :
    ((700 : ℚ) > 640 ∧ (0:ℚ) ≤ 100 ∧ (100:ℚ) ≤ 480) ∧
    ((checkEdges 640 480 ⟨700, 100, 3, -2⟩).posX = 0 ∧
      (checkEdges 640 480 ⟨700, 100, 3, -2⟩).posY = 100 ∧
      (checkEdges 640 480 ⟨700, 100, 3, -2⟩).velX = 3 ∧
      (checkEdges 640 480 ⟨700, 100, 3, -2⟩).velY = -2) ∧
    ((500 : ℚ) > 480 ∧
      (liquidWrap 640 480 ⟨10, 500, 10, 500, 1, 2, 4, 3⟩).posY = 0 ∧
      (liquidWrap 640 480 ⟨10, 500, 10, 500, 1, 2, 4, 3⟩).velX = 1 ∧
      (liquidWrap 640 480 ⟨10, 500, 10, 500, 1, 2, 4, 3⟩).velY = 2) := by
  have hp := particle_wraparound 640 480 ⟨700, 100, 3, -2⟩ ⟨10, 500, 10, 500, 1, 2, 4, 3⟩
  refine ⟨⟨by norm_num, by norm_num, by norm_num⟩,
    ⟨hp.2.1 (by norm_num), hp.2.2.2.2.2.2.1 (by norm_num) (by norm_num), hp.1.1, hp.1.2⟩,
    ⟨by norm_num, hp.2.2.2.2.2.2.2.2.2.2.2.1 (by norm_num),
      hp.2.2.2.2.2.2.2.1.1, hp.2.2.2.2.2.2.2.1.2.1⟩⟩

/-- C10: `setGlobalEnergy` is a no-op for every input — including the
aggregate hand-motion energy `min(totalEnergy * 15, 1)` the hand-results
callback passes on every camera frame — leaving all engine state unchanged
and having no effect on subsequent `getEnergy()` results, which read only the
output level meter. -/
theorem setGlobalEnergy_noop :
    ∀ (e : ℚ) (s : AudioEngineFull),
      setGlobalEnergy e s = s ∧
      (∀ totalEnergy, setGlobalEnergy (handGlobalEnergyArg totalEnergy) s = s) ∧
      getEnergy (setGlobalEnergy e s).meter = getEnergy s.meter :=
  fun _ _ => ⟨rfl, fun _ => rfl, rfl⟩

theorem smoothedAudioSeq_le_raw (s0 : ℚ) (raw : ℕ → ℚ)
    (hmono : ∀ n, raw n ≤ raw (n + 1)) (h0 : s0 ≤ raw 0) :
    ∀ n, smoothedAudioSeq s0 raw n ≤ raw n := by
  intro n
  induction n with
  | zero => exact h0
  | succ n ih =>
      have h1 := hmono n
      simp only [smoothedAudioSeq, lerp]
      linarith

/-- C7: a monotonically non-decreasing raw-energy sequence whose first element
dominates the initial smoothed value yields a non-decreasing smoothed energy
(the 0.15 lerp of line 496), hence a non-decreasing flow-field max-speed cap
`baseMaxSpeed * (1 + audio * 3)` (line 608). -/
theorem energy_response_monotone (s0 b : ℚ) (raw : ℕ → ℚ)
    (hmono : ∀ n, raw n ≤ raw (n + 1)) (h0 : s0 ≤ raw 0) (hb : 0 ≤ b) :
    ∀ n, smoothedAudioSeq s0 raw n ≤ smoothedAudioSeq s0 raw (n + 1) ∧
      liquidMaxSpeed b (smoothedAudioSeq s0 raw n) ≤
        liquidMaxSpeed b (smoothedAudioSeq s0 raw (n + 1)) := by
  intro n
  have h1 := smoothedAudioSeq_le_raw s0 raw hmono h0 n
  have hs : smoothedAudioSeq s0 raw n ≤ smoothedAudioSeq s0 raw (n + 1) := by
    simp only [smoothedAudioSeq, lerp]
    linarith
  refine ⟨hs, ?_⟩
  have h2 : 1 + smoothedAudioSeq s0 raw n * 3 ≤ 1 + smoothedAudioSeq s0 raw (n + 1) * 3 := by
    linarith
  simpa [liquidMaxSpeed] using mul_le_mul_of_nonneg_left h2 hb

/-- C7 witness: the raw readings `0, 1, 2, …` with initial smoothed value 0
and base max speed 2. -/
theorem energy_response_monotone_witness :
    (∀ n : ℕ, ((n : ℚ)) ≤ (((n + 1 : ℕ)) : ℚ)) ∧ ((0 : ℚ) ≤ ((0 : ℕ) : ℚ)) ∧ ((0 : ℚ) ≤ 2) ∧
    (∀ n, smoothedAudioSeq 0 (fun k => (k : ℚ)) n ≤ smoothedAudioSeq 0 (fun k => (k : ℚ)) (n + 1) ∧
      liquidMaxSpeed 2 (smoothedAudioSeq 0 (fun k => (k : ℚ)) n) ≤
        liquidMaxSpeed 2 (smoothedAudioSeq 0 (fun k => (k : ℚ)) (n + 1))) := by
  have hmono : ∀ n : ℕ, (((n : ℕ)) : ℚ) ≤ (((n + 1 : ℕ)) : ℚ) := by
    intro n
    push_cast
    linarith
  have h0 : (0 : ℚ) ≤ ((0 : ℕ) : ℚ) := by norm_num
  exact ⟨hmono, h0, by norm_num,
    energy_response_monotone 0 2 (fun k => (k : ℚ)) hmono h0 (by norm_num)⟩

/-- C6 counterexample: `getEnergy` does not clamp — a meter reading of +40 dB
(the code only documents readings as "approx -Infinity to 0") is converted to
gain 100, far outside `[0, 1]`. -/
theorem getEnergy_not_normalized_cex :
    getEnergy (some (.db 40)) = 100 ∧ ¬ getEnergy (some (.db 40)) ≤ 1 := by
  have h : getEnergy (some (.db 40)) = 100 := by
    show dbToGain 40 = 100
    show (10 : ℝ) ^ ((40 : ℝ) / 20) = 100
    rw [show (40 : ℝ) / 20 = ((2 : ℕ) : ℝ) by norm_num, Real.rpow_natCast]
    norm_num
  refine ⟨h, ?_⟩
  rw [h]
  norm_num

/-- C6 (amended): for meter readings at or below 0 dB — the range the code
documents — the energy is in `[0, 1]`; an absent meter or a non-numeric
reading yields 0. -/
theorem getEnergy_normalized (db : ℝ) (hdb : db ≤ 0) :
    0 ≤ getEnergy (some (.db db)) ∧ getEnergy (some (.db db)) ≤ 1 ∧
    getEnergy none = 0 ∧ getEnergy (some .nonNumeric) = 0 := by
  refine ⟨?_, ?_, rfl, rfl⟩
  · show (0 : ℝ) ≤ (10 : ℝ) ^ (db / 20)
    exact le_of_lt (Real.rpow_pos_of_pos (by norm_num) _)
  · show (10 : ℝ) ^ (db / 20) ≤ 1
    exact Real.rpow_le_one_of_one_le_of_nonpos (by norm_num) (by linarith)

/-- C6 witness: a 0 dB reading maps inside `[0, 1]` (to exactly 1). -/
theorem getEnergy_normalized_witness :
    (0 : ℝ) ≤ 0 ∧
    (0 ≤ getEnergy (some (.db 0)) ∧ getEnergy (some (.db 0)) ≤ 1 ∧
      getEnergy none = 0 ∧ getEnergy (some .nonNumeric) = 0) :=
  ⟨le_refl 0, getEnergy_normalized 0 (le_refl 0)⟩

/-- C2: at `y = 0` (hand at the very top) the computed scale index is the
scale length itself — one past the last valid index — so the indexing
expression `scale[noteIndex]` yields `undefined` instead of the highest note.
Shown on the jazz right-hand scale of length 10: the index is 10, not 9. -/
theorem noteIndex_out_of_range_at_top :
    noteIndex 0 JAZZ_SCALE_RIGHT.length = 10 ∧
    ¬ noteIndex 0 JAZZ_SCALE_RIGHT.length ≤ (JAZZ_SCALE_RIGHT.length : ℤ) - 1 ∧
    scaleNote JAZZ_SCALE_RIGHT (noteIndex 0 JAZZ_SCALE_RIGHT.length) = none := by
  have hlen : JAZZ_SCALE_RIGHT.length = 10 := by decide
  have h : noteIndex 0 JAZZ_SCALE_RIGHT.length = 10 := by
    rw [hlen]
    unfold noteIndex
    norm_num
  refine ⟨h, ?_, ?_⟩
  · rw [h, hlen]
    norm_num
  · rw [h]
    decide

/-- C3 counterexample: `loadGenre` resets each voice's `lastTriggerTime` to 0,
not −∞ — so not every trigger computed after the load is eligible: one whose
computed fire time is exactly 0 is rejected (the gate is strict). -/
theorem loadGenre_zero_blocks_time_zero_trigger :
    (loadGenre sampleState .JAZZ 5).lastRightTime = 0 ∧
    (loadGenre sampleState .JAZZ 5).lastLeftTime = 0 ∧
    noteTimes (updateRightHand (loadGenre sampleState .JAZZ 5) (1/2) (1/2) true 0 0 0).2 = [] ∧
    (updateRightHand (loadGenre sampleState .JAZZ 5) (1/2) (1/2) true 0 0 0).1 =
      loadGenre sampleState .JAZZ 5 ∧
    noteTimes (updateLeftHand (loadGenre sampleState .JAZZ 5) (1/2) (1/2) true 0 0 0).2 = [] := by
  refine ⟨?_, ?_, ?_, ?_, ?_⟩ <;>
    simp [loadGenre, setupJazz, disposeInstruments, sampleState, updateRightHand,
      updateLeftHand, noteTimes, computedFireTime]

/-- C3 (amended): on every profile load the voices' `lastTriggerTime` is reset
to 0 (not −∞), the note-index memory to −1, and the transport to step counter 0
and position 0 with its time origin at the load instant; consequently every
trigger whose computed fire time is strictly positive — which holds for all
real audio-clock times — is eligible for acceptance. -/
theorem loadGenre_reset_spec (st : EngineState) (g : GameGenre) (now : ℚ) :
    (loadGenre st g now).lastRightTime = 0 ∧
    (loadGenre st g now).lastLeftTime = 0 ∧
    (loadGenre st g now).lastLeftNoteIndex = -1 ∧
    (loadGenre st g now).loopCounter = 0 ∧
    (loadGenre st g now).transportPosition = 0 ∧
    (loadGenre st g now).transportOrigin = now ∧
    (loadGenre st g now).transportRunning = true ∧
    (∀ y x squeeze nowT nd : ℚ, 0 < computedFireTime nowT nd →
      noteTimes (updateRightHand (loadGenre st g now) y x true squeeze nowT nd).2 =
        [computedFireTime nowT nd]) ∧
    (∀ y x squeeze nowT nd : ℚ, 0 < computedFireTime nowT nd →
      noteTimes (updateLeftHand (loadGenre st g now) y x true squeeze nowT nd).2 =
        [computedFireTime nowT nd]) := by
  cases g <;>
    refine ⟨rfl, rfl, rfl, rfl, rfl, rfl, rfl, ?_, ?_⟩ <;>
    · intro y x squeeze nowT nd h
      simp [loadGenre, setupJazz, setupElectronic, setupFunk, disposeInstruments,
        updateRightHand, updateLeftHand, noteTimes, h]

/-- C3 witness: loading jazz at instant 5 from a mid-session state, then a
trigger computed at fire time `max(3, 1/4) = 3 > 0` is accepted on each voice. -/
theorem loadGenre_reset_spec_witness :
    (loadGenre sampleState .JAZZ 5).lastRightTime = 0 ∧
    (loadGenre sampleState .JAZZ 5).transportOrigin = 5 ∧
    (loadGenre sampleState .JAZZ 5).loopCounter = 0 ∧
    (0 : ℚ) < computedFireTime 3 (1/4) ∧
    noteTimes (updateRightHand (loadGenre sampleState .JAZZ 5) (1/2) (1/2) true 0 3 (1/4)).2 =
      [computedFireTime 3 (1/4)] ∧
    noteTimes (updateLeftHand (loadGenre sampleState .JAZZ 5) (1/2) (1/2) true 0 3 (1/4)).2 =
      [computedFireTime 3 (1/4)] := by
  have h := loadGenre_reset_spec sampleState .JAZZ 5
  have hpos : (0 : ℚ) < computedFireTime 3 (1/4) := by norm_num [computedFireTime]
  exact ⟨h.1, h.2.2.2.2.2.1, h.2.2.2.1, hpos,
    h.2.2.2.2.2.2.2.1 (1/2) (1/2) 0 3 (1/4) hpos,
    h.2.2.2.2.2.2.2.2 (1/2) (1/2) 0 3 (1/4) hpos⟩

/-- C4 counterexample: a tick skipped because the backend is not running does
NOT advance `loopCounter` (the early return precedes `loopCounter++`), so the
skipped step is not dropped — the very same pattern step (here step 4, a
beat-carrying step of the jazz pattern) fires at the next running tick.  The
resumed tick is indistinguishable from the skipped tick having run. -/
theorem scheduler_skip_replays_step :
    loopTick .JAZZ true false 0 0 4 = (4, none) ∧
    (loopTick .JAZZ true true 0 0 4).2 = some (4, patternEvents .JAZZ 0 0 4) ∧
    patternEvents .JAZZ 0 0 4 ≠ [] ∧
    loopTick .JAZZ true true 0 0 (loopTick .JAZZ true false 0 0 4).1 =
      loopTick .JAZZ true true 0 0 4 := by
  refine ⟨?_, ?_, ?_, ?_⟩ <;>
    simp [loopTick, patternEvents, jazzEvents]

/-- With the hi-hat disposed the loop body is a no-op. -/
theorem runLoop_noHiHat (g : GameGenre) (ticks : List TickInput) (c : ℕ) :
    runLoop g false ticks c = (c, []) := by
  induction ticks generalizing c with
  | nil => rfl
  | cons t rest ih => simp [runLoop, loopTick, ih]

theorem runLoop_counter (g : GameGenre) (ticks : List TickInput) :
    ∀ c, (runLoop g true ticks c).1 = c + ticks.countP (fun t => t.running) := by
  induction ticks with
  | nil => intro c; simp [runLoop]
  | cons t rest ih =>
      intro c
      rcases t with ⟨run, r1, r2⟩
      cases run
      · have h := ih c
        simp [runLoop, loopTick, List.countP_cons]
        omega
      · have h := ih (c + 1)
        simp [runLoop, loopTick, List.countP_cons, h]
        omega

theorem runLoop_steps (g : GameGenre) (ticks : List TickInput) :
    ∀ c, ((runLoop g true ticks c).2).map Prod.fst =
      (List.range (ticks.countP (fun t => t.running))).map (fun k => (c + k) % 16) := by
  induction ticks with
  | nil => intro c; simp [runLoop]
  | cons t rest ih =>
      intro c
      rcases t with ⟨run, r1, r2⟩
      cases run
      · have h := ih c
        simpa [runLoop, loopTick, List.countP_cons] using h
      · have h := ih (c + 1)
        have hcount : List.countP (fun t => t.running) (⟨true, r1, r2⟩ :: rest) =
            List.countP (fun t => t.running) rest + 1 := by
          simp [List.countP_cons]
        have hlhs : (runLoop g true (⟨true, r1, r2⟩ :: rest) c).2 =
            (c % 16, patternEvents g r1 r2 (c % 16)) :: (runLoop g true rest (c + 1)).2 := by
          simp [runLoop, loopTick]
        rw [hcount, hlhs, List.map_cons, h, List.range_succ_eq_map, List.map_cons,
          List.map_map]
        congr 1
        apply List.map_congr_left
        intro k _
        simp only [Function.comp]
        omega

/-- C4 (amended): when the audio backend reports it is not running (or the
instruments are disposed), the loop body fires nothing for that tick and does
not advance the step counter; hence across any tick sequence the fired steps
are exactly the consecutive steps `c, c+1, …` (mod 16), one per executed tick
— no backlog or catch-up burst ever accumulates, but a skipped step is
deferred to the next running tick rather than dropped. -/
theorem scheduler_skip_no_backlog (g : GameGenre) (hh : Bool) (ticks : List TickInput) (c : ℕ) :
    (runLoop g hh ticks c).1 = c + (if hh then ticks.countP (fun t => t.running) else 0) ∧
    ((runLoop g hh ticks c).2).map Prod.fst =
      (List.range (if hh then ticks.countP (fun t => t.running) else 0)).map
        (fun k => (c + k) % 16) ∧
    (∀ r1 r2 c', loopTick g hh false r1 r2 c' = (c', none)) := by
  cases hh
  · refine ⟨?_, ?_, ?_⟩
    · simp [runLoop_noHiHat]
    · simp [runLoop_noHiHat]
    · intro r1 r2 c'
      simp [loopTick]
  · refine ⟨?_, ?_, ?_⟩
    · simpa using runLoop_counter g ticks c
    · simpa using runLoop_steps g ticks c
    · intro r1 r2 c'
      simp [loopTick]

/-- C5: a rejected trigger (candidate fire time not strictly after the voice's
`lastTriggerTime`) is a silent no-op: the call is indistinguishable from one
with the trigger flag off — no note command, no scheduled visual, engine state
(including `lastTriggerTime`) unchanged, nothing queued or retried, no error
surfaced (the function is total).  Both voices. -/
theorem rejected_trigger_silent_noop (st : EngineState) (y x squeeze now nextDiv : ℚ) :
    (computedFireTime now nextDiv ≤ st.lastRightTime →
      updateRightHand st y x true squeeze now nextDiv =
        updateRightHand st y x false squeeze now nextDiv ∧
      (updateRightHand st y x true squeeze now nextDiv).1 = st ∧
      ∀ c ∈ (updateRightHand st y x true squeeze now nextDiv).2,
        isNoteCmd c = false ∧ isDrawCmd c = false) ∧
    (computedFireTime now nextDiv ≤ st.lastLeftTime →
      updateLeftHand st y x true squeeze now nextDiv =
        updateLeftHand st y x false squeeze now nextDiv ∧
      (updateLeftHand st y x true squeeze now nextDiv).1 = st ∧
      ∀ c ∈ (updateLeftHand st y x true squeeze now nextDiv).2,
        isNoteCmd c = false ∧ isDrawCmd c = false) := by
  constructor
  · intro hle
    have hnot : ¬ (st.lastRightTime < computedFireTime now nextDiv) := not_lt.mpr hle
    by_cases hg : st.hasRightSynth = true ∧ st.isInitialized = true
    · refine ⟨?_, ?_, ?_⟩ <;>
        cases hcg : st.currentGenre <;>
          simp [updateRightHand, hg, hnot, isNoteCmd, isDrawCmd, hcg]
    · refine ⟨?_, ?_, ?_⟩ <;>
        simp [updateRightHand, hg]
  · intro hle
    have hnot : ¬ (st.lastLeftTime < computedFireTime now nextDiv) := not_lt.mpr hle
    by_cases hg : st.hasLeftSynth = true ∧ st.hasLeftEffect = true ∧ st.isInitialized = true
    · refine ⟨?_, ?_, ?_⟩ <;>
        cases hcg : st.currentGenre <;>
          simp [updateLeftHand, hg, hnot, isNoteCmd, isDrawCmd, hcg]
    · refine ⟨?_, ?_, ?_⟩ <;>
        simp [updateLeftHand, hg]

/-- C5 witness: in the sample mid-session state (`lastRightTime = 42`,
`lastLeftTime = 37`) a trigger computed at fire time `max(3, 5) = 5` is
rejected on both voices and is a silent no-op. -/
theorem rejected_trigger_silent_noop_witness :
    computedFireTime 3 5 ≤ sampleState.lastRightTime ∧
    computedFireTime 3 5 ≤ sampleState.lastLeftTime ∧
    (updateRightHand sampleState (1/2) (1/3) true (1/4) 3 5 =
        updateRightHand sampleState (1/2) (1/3) false (1/4) 3 5 ∧
      (updateRightHand sampleState (1/2) (1/3) true (1/4) 3 5).1 = sampleState ∧
      ∀ c ∈ (updateRightHand sampleState (1/2) (1/3) true (1/4) 3 5).2,
        isNoteCmd c = false ∧ isDrawCmd c = false) ∧
    (updateLeftHand sampleState (1/2) (1/3) true (1/4) 3 5 =
        updateLeftHand sampleState (1/2) (1/3) false (1/4) 3 5 ∧
      (updateLeftHand sampleState (1/2) (1/3) true (1/4) 3 5).1 = sampleState ∧
      ∀ c ∈ (updateLeftHand sampleState (1/2) (1/3) true (1/4) 3 5).2,
        isNoteCmd c = false ∧ isDrawCmd c = false) := by
  have h := rejected_trigger_silent_noop sampleState (1/2) (1/3) (1/4) 3 5
  have h1 : computedFireTime 3 5 ≤ sampleState.lastRightTime := by
    norm_num [computedFireTime, sampleState]
  have h2 : computedFireTime 3 5 ≤ sampleState.lastLeftTime := by
    norm_num [computedFireTime, sampleState]
  exact ⟨h1, h2, h.1 h1, h.2 h2⟩

theorem updateRightHand_cases (st : EngineState) (y x squeeze now nextDiv : ℚ) (trigger : Bool) :
    (noteTimes (updateRightHand st y x trigger squeeze now nextDiv).2 = [] ∧
      (updateRightHand st y x trigger squeeze now nextDiv).1 = st) ∨
    (noteTimes (updateRightHand st y x trigger squeeze now nextDiv).2 =
        [computedFireTime now nextDiv] ∧
      st.lastRightTime < computedFireTime now nextDiv ∧
      (updateRightHand st y x trigger squeeze now nextDiv).1 =
        { st with lastRightTime := computedFireTime now nextDiv }) := by
  by_cases hg : st.hasRightSynth = true ∧ st.isInitialized = true
  · cases trigger
    · left
      cases hcg : st.currentGenre <;> simp [updateRightHand, hg, hcg, noteTimes]
    · by_cases ht : st.lastRightTime < computedFireTime now nextDiv
      · right
        refine ⟨?_, ht, ?_⟩ <;>
          cases hcg : st.currentGenre <;>
            simp [updateRightHand, hg, hcg, ht, noteTimes]
      · left
        cases hcg : st.currentGenre <;> simp [updateRightHand, hg, hcg, ht, noteTimes]
  · left
    simp [updateRightHand, hg, noteTimes]

theorem updateLeftHand_cases (st : EngineState) (y x squeeze now nextDiv : ℚ) (trigger : Bool) :
    (noteTimes (updateLeftHand st y x trigger squeeze now nextDiv).2 = [] ∧
      (updateLeftHand st y x trigger squeeze now nextDiv).1 = st) ∨
    (noteTimes (updateLeftHand st y x trigger squeeze now nextDiv).2 =
        [computedFireTime now nextDiv] ∧
      st.lastLeftTime < computedFireTime now nextDiv ∧
      (updateLeftHand st y x trigger squeeze now nextDiv).1 =
        { st with
            lastLeftTime := computedFireTime now nextDiv
            lastLeftNoteIndex := noteIndex y (leftScale st.currentGenre).length }) := by
  by_cases hg : st.hasLeftSynth = true ∧ st.hasLeftEffect = true ∧ st.isInitialized = true
  · cases trigger
    · left
      cases hcg : st.currentGenre <;> simp [updateLeftHand, hg, hcg, noteTimes]
    · by_cases ht : st.lastLeftTime < computedFireTime now nextDiv
      · right
        refine ⟨?_, ht, ?_⟩ <;>
          cases hcg : st.currentGenre <;>
            simp [updateLeftHand, hg, hcg, ht, noteTimes, leftScale]
      · left
        cases hcg : st.currentGenre <;> simp [updateLeftHand, hg, hcg, ht, noteTimes]
  · left
    simp [updateLeftHand, hg, noteTimes]

theorem runRightHand_times (st : EngineState) (ins : List HandInput) :
    List.Pairwise (· < ·) (noteTimes (runRightHand st ins).2) ∧
    (∀ t ∈ noteTimes (runRightHand st ins).2,
      st.lastRightTime < t ∧ t ≤ (runRightHand st ins).1.lastRightTime) ∧
    st.lastRightTime ≤ (runRightHand st ins).1.lastRightTime := by
  induction ins generalizing st with
  | nil => simp [runRightHand, noteTimes]
  | cons i rest ih =>
      have hrun2 : (runRightHand st (i :: rest)).2 =
          (updateRightHand st i.y i.x i.trigger i.squeeze i.now i.nextDiv).2 ++
            (runRightHand (updateRightHand st i.y i.x i.trigger i.squeeze i.now i.nextDiv).1
              rest).2 := rfl
      have hrun1 : (runRightHand st (i :: rest)).1 =
          (runRightHand (updateRightHand st i.y i.x i.trigger i.squeeze i.now i.nextDiv).1
            rest).1 := rfl
      rcases updateRightHand_cases st i.y i.x i.squeeze i.now i.nextDiv i.trigger with
        ⟨h1, h2⟩ | ⟨h1, hlt, h2⟩
      · rw [hrun2, hrun1, noteTimes_append, h1, List.nil_append, h2]
        exact ih st
      · obtain ⟨p, bd, mono⟩ := ih { st with lastRightTime := computedFireTime i.now i.nextDiv }
        rw [hrun2, hrun1, noteTimes_append, h1, h2]
        simp only [List.singleton_append]
        refine ⟨?_, ?_, ?_⟩
        · rw [List.pairwise_cons]
          exact ⟨fun t ht => (bd t ht).1, p⟩
        · intro t ht
          rcases List.mem_cons.mp ht with rfl | ht'
          · exact ⟨hlt, mono⟩
          · exact ⟨lt_trans hlt (bd t ht').1, (bd t ht').2⟩
        · exact le_trans hlt.le mono

theorem runLeftHand_times (st : EngineState) (ins : List HandInput) :
    List.Pairwise (· < ·) (noteTimes (runLeftHand st ins).2) ∧
    (∀ t ∈ noteTimes (runLeftHand st ins).2,
      st.lastLeftTime < t ∧ t ≤ (runLeftHand st ins).1.lastLeftTime) ∧
    st.lastLeftTime ≤ (runLeftHand st ins).1.lastLeftTime := by
  induction ins generalizing st with
  | nil => simp [runLeftHand, noteTimes]
  | cons i rest ih =>
      have hrun2 : (runLeftHand st (i :: rest)).2 =
          (updateLeftHand st i.y i.x i.trigger i.squeeze i.now i.nextDiv).2 ++
            (runLeftHand (updateLeftHand st i.y i.x i.trigger i.squeeze i.now i.nextDiv).1
              rest).2 := rfl
      have hrun1 : (runLeftHand st (i :: rest)).1 =
          (runLeftHand (updateLeftHand st i.y i.x i.trigger i.squeeze i.now i.nextDiv).1
            rest).1 := rfl
      rcases updateLeftHand_cases st i.y i.x i.squeeze i.now i.nextDiv i.trigger with
        ⟨h1, h2⟩ | ⟨h1, hlt, h2⟩
      · rw [hrun2, hrun1, noteTimes_append, h1, List.nil_append, h2]
        exact ih st
      · obtain ⟨p, bd, mono⟩ := ih
          { st with
              lastLeftTime := computedFireTime i.now i.nextDiv
              lastLeftNoteIndex := noteIndex i.y (leftScale st.currentGenre).length }
        rw [hrun2, hrun1, noteTimes_append, h1, h2]
        simp only [List.singleton_append]
        refine ⟨?_, ?_, ?_⟩
        · rw [List.pairwise_cons]
          exact ⟨fun t ht => (bd t ht).1, p⟩
        · intro t ht
          rcases List.mem_cons.mp ht with rfl | ht'
          · exact ⟨hlt, mono⟩
          · exact ⟨lt_trans hlt (bd t ht').1, (bd t ht').2⟩
        · exact le_trans hlt.le mono

theorem updateRightHand_gate (st : EngineState) (y x squeeze now nextDiv : ℚ)
    (hS : st.hasRightSynth = true) (hI : st.isInitialized = true) :
    (st.lastRightTime < computedFireTime now nextDiv →
      noteTimes (updateRightHand st y x true squeeze now nextDiv).2 =
        [computedFireTime now nextDiv] ∧
      (updateRightHand st y x true squeeze now nextDiv).1 =
        { st with lastRightTime := computedFireTime now nextDiv }) ∧
    (¬ st.lastRightTime < computedFireTime now nextDiv →
      noteTimes (updateRightHand st y x true squeeze now nextDiv).2 = [] ∧
      (updateRightHand st y x true squeeze now nextDiv).1 = st) := by
  constructor <;> intro ht <;>
    cases hcg : st.currentGenre <;>
      simp [updateRightHand, hS, hI, hcg, ht, noteTimes]

theorem updateLeftHand_gate (st : EngineState) (y x squeeze now nextDiv : ℚ)
    (hS : st.hasLeftSynth = true) (hE : st.hasLeftEffect = true)
    (hI : st.isInitialized = true) :
    (st.lastLeftTime < computedFireTime now nextDiv →
      noteTimes (updateLeftHand st y x true squeeze now nextDiv).2 =
        [computedFireTime now nextDiv] ∧
      (updateLeftHand st y x true squeeze now nextDiv).1 =
        { st with
            lastLeftTime := computedFireTime now nextDiv
            lastLeftNoteIndex := noteIndex y (leftScale st.currentGenre).length }) ∧
    (¬ st.lastLeftTime < computedFireTime now nextDiv →
      noteTimes (updateLeftHand st y x true squeeze now nextDiv).2 = [] ∧
      (updateLeftHand st y x true squeeze now nextDiv).1 = st) := by
  constructor <;> intro ht <;>
    cases hcg : st.currentGenre <;>
      simp [updateLeftHand, hS, hE, hI, hcg, ht, noteTimes, leftScale]

theorem nextSubdivisionTime_ge (s now : ℚ) (hs : 0 < s) :
    now ≤ nextSubdivisionTime s now := by
  have h1 : now / s ≤ (⌈now / s⌉ : ℚ) := Int.le_ceil _
  calc now = s * (now / s) := by field_simp
    _ ≤ s * ⌈now / s⌉ := mul_le_mul_of_nonneg_left h1 hs.le

theorem runRightHand_same_slot (st : EngineState) (i1 i2 : HandInput) (T : ℚ)
    (hS : st.hasRightSynth = true) (hI : st.isInitialized = true)
    (htr1 : i1.trigger = true) (htr2 : i2.trigger = true)
    (hc1 : computedFireTime i1.now i1.nextDiv = T)
    (hc2 : computedFireTime i2.now i2.nextDiv = T)
    (hT : st.lastRightTime < T) :
    noteTimes (runRightHand st [i1, i2]).2 = [T] := by
  have e1 : (runRightHand st [i1, i2]).2 =
      (updateRightHand st i1.y i1.x i1.trigger i1.squeeze i1.now i1.nextDiv).2 ++
        ((updateRightHand
            (updateRightHand st i1.y i1.x i1.trigger i1.squeeze i1.now i1.nextDiv).1
            i2.y i2.x i2.trigger i2.squeeze i2.now i2.nextDiv).2 ++ []) := rfl
  rw [e1, htr1, htr2]
  have g1 := (updateRightHand_gate st i1.y i1.x i1.squeeze i1.now i1.nextDiv hS hI).1
    (by rw [hc1]; exact hT)
  rw [noteTimes_append, noteTimes_append, g1.1, g1.2]
  have hT2 : ¬ ({ st with lastRightTime := computedFireTime i1.now i1.nextDiv } :
      EngineState).lastRightTime < computedFireTime i2.now i2.nextDiv := by
    show ¬ computedFireTime i1.now i1.nextDiv < computedFireTime i2.now i2.nextDiv
    rw [hc1, hc2]
    exact lt_irrefl T
  have g2 := (updateRightHand_gate
      { st with lastRightTime := computedFireTime i1.now i1.nextDiv }
      i2.y i2.x i2.squeeze i2.now i2.nextDiv hS hI).2 hT2
  rw [g2.1, hc1]
  rfl

theorem runLeftHand_same_slot (st : EngineState) (i1 i2 : HandInput) (T : ℚ)
    (hS : st.hasLeftSynth = true) (hE : st.hasLeftEffect = true)
    (hI : st.isInitialized = true)
    (htr1 : i1.trigger = true) (htr2 : i2.trigger = true)
    (hc1 : computedFireTime i1.now i1.nextDiv = T)
    (hc2 : computedFireTime i2.now i2.nextDiv = T)
    (hT : st.lastLeftTime < T) :
    noteTimes (runLeftHand st [i1, i2]).2 = [T] := by
  have e1 : (runLeftHand st [i1, i2]).2 =
      (updateLeftHand st i1.y i1.x i1.trigger i1.squeeze i1.now i1.nextDiv).2 ++
        ((updateLeftHand
            (updateLeftHand st i1.y i1.x i1.trigger i1.squeeze i1.now i1.nextDiv).1
            i2.y i2.x i2.trigger i2.squeeze i2.now i2.nextDiv).2 ++ []) := rfl
  rw [e1, htr1, htr2]
  have g1 := (updateLeftHand_gate st i1.y i1.x i1.squeeze i1.now i1.nextDiv hS hE hI).1
    (by rw [hc1]; exact hT)
  rw [noteTimes_append, noteTimes_append, g1.1, g1.2]
  have hT2 : ¬ ({ st with
      lastLeftTime := computedFireTime i1.now i1.nextDiv
      lastLeftNoteIndex := noteIndex i1.y (leftScale st.currentGenre).length } :
      EngineState).lastLeftTime < computedFireTime i2.now i2.nextDiv := by
    show ¬ computedFireTime i1.now i1.nextDiv < computedFireTime i2.now i2.nextDiv
    rw [hc1, hc2]
    exact lt_irrefl T
  have g2 := (updateLeftHand_gate
      { st with
          lastLeftTime := computedFireTime i1.now i1.nextDiv
          lastLeftNoteIndex := noteIndex i1.y (leftScale st.currentGenre).length }
      i2.y i2.x i2.squeeze i2.now i2.nextDiv hS hE hI).2 hT2
  rw [g2.1, hc1]
  rfl

/-- C1: on each gesture-controlled voice, (i)–(ii) along any call sequence the
fire times of emitted notes are strictly increasing and all lie strictly after
the starting `lastTriggerTime`; (iii)–(iv) with the voice available, a
candidate trigger fires a note if and only if its computed fire time
`max(now, nextDiv)` is strictly greater than the voice's `lastTriggerTime`;
(v)–(vi) two triggers whose computed times land on the same quantization-slot
boundary (the next 16th-note subdivision) yield exactly one accepted note. -/
theorem accepted_trigger_times_increase :
    (∀ (st : EngineState) (ins : List HandInput),
      List.Pairwise (· < ·) (noteTimes (runRightHand st ins).2) ∧
      ∀ t ∈ noteTimes (runRightHand st ins).2, st.lastRightTime < t) ∧
    (∀ (st : EngineState) (ins : List HandInput),
      List.Pairwise (· < ·) (noteTimes (runLeftHand st ins).2) ∧
      ∀ t ∈ noteTimes (runLeftHand st ins).2, st.lastLeftTime < t) ∧
    (∀ (st : EngineState) (y x squeeze now nextDiv : ℚ),
      st.hasRightSynth = true → st.isInitialized = true →
      (noteTimes (updateRightHand st y x true squeeze now nextDiv).2 ≠ [] ↔
        st.lastRightTime < computedFireTime now nextDiv)) ∧
    (∀ (st : EngineState) (y x squeeze now nextDiv : ℚ),
      st.hasLeftSynth = true → st.hasLeftEffect = true → st.isInitialized = true →
      (noteTimes (updateLeftHand st y x true squeeze now nextDiv).2 ≠ [] ↔
        st.lastLeftTime < computedFireTime now nextDiv)) ∧
    (∀ (st : EngineState) (s : ℚ) (i1 i2 : HandInput), 0 < s →
      st.hasRightSynth = true → st.isInitialized = true →
      i1.trigger = true → i2.trigger = true →
      i1.nextDiv = nextSubdivisionTime s i1.now →
      i2.nextDiv = nextSubdivisionTime s i2.now →
      nextSubdivisionTime s i1.now = nextSubdivisionTime s i2.now →
      st.lastRightTime < nextSubdivisionTime s i1.now →
      noteTimes (runRightHand st [i1, i2]).2 = [nextSubdivisionTime s i1.now]) ∧
    (∀ (st : EngineState) (s : ℚ) (i1 i2 : HandInput), 0 < s →
      st.hasLeftSynth = true → st.hasLeftEffect = true → st.isInitialized = true →
      i1.trigger = true → i2.trigger = true →
      i1.nextDiv = nextSubdivisionTime s i1.now →
      i2.nextDiv = nextSubdivisionTime s i2.now →
      nextSubdivisionTime s i1.now = nextSubdivisionTime s i2.now →
      st.lastLeftTime < nextSubdivisionTime s i1.now →
      noteTimes (runLeftHand st [i1, i2]).2 = [nextSubdivisionTime s i1.now]) := by
  refine ⟨?_, ?_, ?_, ?_, ?_, ?_⟩
  · intro st ins
    obtain ⟨p, bd, _⟩ := runRightHand_times st ins
    exact ⟨p, fun t ht => (bd t ht).1⟩
  · intro st ins
    obtain ⟨p, bd, _⟩ := runLeftHand_times st ins
    exact ⟨p, fun t ht => (bd t ht).1⟩
  · intro st y x squeeze now nextDiv hS hI
    constructor
    · intro hne
      by_contra ht
      exact hne ((updateRightHand_gate st y x squeeze now nextDiv hS hI).2 ht).1
    · intro ht
      rw [((updateRightHand_gate st y x squeeze now nextDiv hS hI).1 ht).1]
      simp
  · intro st y x squeeze now nextDiv hS hE hI
    constructor
    · intro hne
      by_contra ht
      exact hne ((updateLeftHand_gate st y x squeeze now nextDiv hS hE hI).2 ht).1
    · intro ht
      rw [((updateLeftHand_gate st y x squeeze now nextDiv hS hE hI).1 ht).1]
      simp
  · intro st s i1 i2 hs hS hI htr1 htr2 hnd1 hnd2 heq hlt
    have hc1 : computedFireTime i1.now i1.nextDiv = nextSubdivisionTime s i1.now := by
      rw [hnd1]
      exact max_eq_right (nextSubdivisionTime_ge s i1.now hs)
    have hc2 : computedFireTime i2.now i2.nextDiv = nextSubdivisionTime s i1.now := by
      rw [hnd2, heq]
      exact max_eq_right (nextSubdivisionTime_ge s i2.now hs)
    exact runRightHand_same_slot st i1 i2 _ hS hI htr1 htr2 hc1 hc2 hlt
  · intro st s i1 i2 hs hS hE hI htr1 htr2 hnd1 hnd2 heq hlt
    have hc1 : computedFireTime i1.now i1.nextDiv = nextSubdivisionTime s i1.now := by
      rw [hnd1]
      exact max_eq_right (nextSubdivisionTime_ge s i1.now hs)
    have hc2 : computedFireTime i2.now i2.nextDiv = nextSubdivisionTime s i1.now := by
      rw [hnd2, heq]
      exact max_eq_right (nextSubdivisionTime_ge s i2.now hs)
    exact runLeftHand_same_slot st i1 i2 _ hS hE hI htr1 htr2 hc1 hc2 hlt

/-- C1 witness: in the freshly loaded state, two triggers at audio times 1/5
and 6/25 — both quantized to the 16th-note boundary 1/4 — yield exactly one
note at time 1/4 on each voice, and the fire/reject gate agrees with the
strict comparison against `lastTriggerTime` for a concrete accepted trigger. -/
theorem accepted_trigger_times_increase_witness :
    (0 : ℚ) < 1/4 ∧
    freshState.hasRightSynth = true ∧ freshState.isInitialized = true ∧
    nextSubdivisionTime (1/4) (1/5) = nextSubdivisionTime (1/4) (6/25) ∧
    freshState.lastRightTime < nextSubdivisionTime (1/4) (1/5) ∧
    freshState.lastLeftTime < nextSubdivisionTime (1/4) (1/5) ∧
    (noteTimes (updateRightHand sampleState (1/2) (1/2) true 0 50 0).2 ≠ [] ↔
      sampleState.lastRightTime < computedFireTime 50 0) ∧
    (noteTimes (updateLeftHand sampleState (1/2) (1/2) true 0 50 0).2 ≠ [] ↔
      sampleState.lastLeftTime < computedFireTime 50 0) ∧
    noteTimes (runRightHand freshState
        [⟨1/2, 1/2, true, 0, 1/5, nextSubdivisionTime (1/4) (1/5)⟩,
         ⟨1/2, 1/2, true, 0, 6/25, nextSubdivisionTime (1/4) (6/25)⟩]).2 =
      [nextSubdivisionTime (1/4) (1/5)] ∧
    noteTimes (runLeftHand freshState
        [⟨1/2, 1/2, true, 0, 1/5, nextSubdivisionTime (1/4) (1/5)⟩,
         ⟨1/2, 1/2, true, 0, 6/25, nextSubdivisionTime (1/4) (6/25)⟩]).2 =
      [nextSubdivisionTime (1/4) (1/5)] := by
  obtain ⟨p1, p2, p3, p4, p5, p6⟩ := accepted_trigger_times_increase
  have hs : (0 : ℚ) < 1/4 := by norm_num
  have hceil1 : ⌈(4 : ℚ)/5⌉ = (1 : ℤ) := by
    rw [Int.ceil_eq_iff]
    norm_num
  have hceil2 : ⌈(24 : ℚ)/25⌉ = (1 : ℤ) := by
    rw [Int.ceil_eq_iff]
    norm_num
  have heq : nextSubdivisionTime (1/4) (1/5) = nextSubdivisionTime (1/4) (6/25) := by
    unfold nextSubdivisionTime
    norm_num [hceil1, hceil2]
  have hval : nextSubdivisionTime (1/4) (1/5) = 1/4 := by
    unfold nextSubdivisionTime
    norm_num [hceil1]
  have hltR : freshState.lastRightTime < nextSubdivisionTime (1/4) (1/5) := by
    rw [hval]
    norm_num [freshState, sampleState]
  have hltL : freshState.lastLeftTime < nextSubdivisionTime (1/4) (1/5) := by
    rw [hval]
    norm_num [freshState, sampleState]
  exact ⟨hs, rfl, rfl, heq, hltR, hltL,
    p3 sampleState (1/2) (1/2) 0 50 0 rfl rfl,
    p4 sampleState (1/2) (1/2) 0 50 0 rfl rfl rfl,
    p5 freshState (1/4)
      ⟨1/2, 1/2, true, 0, 1/5, nextSubdivisionTime (1/4) (1/5)⟩
      ⟨1/2, 1/2, true, 0, 6/25, nextSubdivisionTime (1/4) (6/25)⟩
      hs rfl rfl rfl rfl rfl rfl heq hltR,
    p6 freshState (1/4)
      ⟨1/2, 1/2, true, 0, 1/5, nextSubdivisionTime (1/4) (1/5)⟩
      ⟨1/2, 1/2, true, 0, 6/25, nextSubdivisionTime (1/4) (6/25)⟩
      hs rfl rfl rfl rfl rfl rfl rfl heq hltL⟩

theorem mem_pairIndices {n : ℕ} {ij : ℕ × ℕ} :
    ij ∈ pairIndices n ↔ ij.1 < ij.2 ∧ ij.2 < n := by
  rcases ij with ⟨a, b⟩
  simp only [pairIndices, List.mem_flatMap, List.mem_map, List.mem_filter, List.mem_range,
    decide_eq_true_eq]
  constructor
  · rintro ⟨i, hi, j, ⟨hj, hij⟩, hfe⟩
    injection hfe with h1 h2
    subst h1
    subst h2
    exact ⟨hij, hj⟩
  · rintro ⟨hab, hbn⟩
    exact ⟨a, lt_trans hab hbn, b, ⟨hbn, hab⟩, rfl⟩

theorem pairIndices_nodup (n : ℕ) : (pairIndices n).Nodup := by
  rw [pairIndices, List.nodup_flatMap]
  constructor
  · intro i _
    refine List.Nodup.map ?_ (List.Nodup.filter _ (List.nodup_range n))
    intro u v huv
    simpa using huv
  · have hp := List.pairwise_lt_range n
    refine hp.imp ?_
    intro u v huv
    intro x hxu hxv
    simp only [List.mem_map, List.mem_filter, List.mem_range] at hxu hxv
    obtain ⟨j, _, rfl⟩ := hxu
    obtain ⟨j', _, he⟩ := hxv
    injection he with h1 h2
    omega


theorem joinsPair_eq_false {a b : ℕ} {ij : ℕ × ℕ} {al : ℝ} (hab : a < b) (hij : ij.1 < ij.2)
    (hne : ij ≠ (a, b)) : joinsPair a b (ij.1, ij.2, al) = false := by
  simp only [joinsPair, decide_eq_false_iff_not]
  rintro (⟨h1, h2⟩ | ⟨h1, h2⟩)
  · exact hne (Prod.ext_iff.mpr ⟨h1, h2⟩)
  · rw [h1, h2] at hij
    omega

theorem countP_filterMap_eq_zero {α β : Type} (f : α → Option β) (q : β → Bool) :
    ∀ l : List α, (∀ a ∈ l, ∀ y, f a = some y → q y = false) →
      (l.filterMap f).countP q = 0 := by
  intro l
  induction l with
  | nil => intro _; rfl
  | cons a l ih =>
      intro h
      rw [List.filterMap_cons]
      cases hfa : f a with
      | none => exact ih fun a' ha' => h a' (List.mem_cons_of_mem _ ha')
      | some y =>
          rw [List.countP_cons, h a (List.mem_cons_self a l) y hfa]
          simp [ih fun a' ha' => h a' (List.mem_cons_of_mem _ ha')]

theorem countP_filterMap_eq_one {α β : Type} (f : α → Option β) (q : β → Bool)
    (x : α) (yx : β) (hfx : f x = some yx) (hqx : q yx = true) :
    ∀ l : List α, l.Nodup → x ∈ l →
      (∀ a ∈ l, a ≠ x → ∀ y, f a = some y → q y = false) →
      (l.filterMap f).countP q = 1 := by
  intro l
  induction l with
  | nil => intro _ hx; cases hx
  | cons a l ih =>
      intro hnd hx hother
      obtain ⟨hna, hnl⟩ := List.nodup_cons.mp hnd
      rw [List.filterMap_cons]
      rcases List.mem_cons.mp hx with rfl | hx'
      · rw [hfx, List.countP_cons]
        have hz : (l.filterMap f).countP q = 0 := by
          apply countP_filterMap_eq_zero
          intro a' ha' y hfa
          exact hother a' (List.mem_cons_of_mem _ ha')
            (fun he => hna (he ▸ ha')) y hfa
        simp [hqx, hz]
      · have hax : a ≠ x := fun he => hna (he ▸ hx')
        have hrest := ih hnl hx'
          fun a' ha' hne y hfa => hother a' (List.mem_cons_of_mem _ ha') hne y hfa
        cases hfa : f a with
        | none => exact hrest
        | some y =>
            rw [List.countP_cons, hother a (List.mem_cons_self a l) hax y hfa]
            simp [hrest]

/-- C9: in the electronic (graph) mode's connection pass, an unordered pair of
nodes at mutual distance `d` is joined by exactly one rendered edge when
`d < 180 + 100·energy`, with alpha `100·(1 − d/threshold)` — strictly positive
below the threshold, maximal (100) at `d = 0`, zero at the threshold — and by
no edge at all when `d` is at or beyond the threshold. -/
theorem graph_mode_connectivity (nodes : List NeuralNode) (audio : ℝ) (a b : ℕ)
    (hab : a < b) (hbn : b < nodes.length) (haudio : 0 ≤ audio) :
    ((nodeDist (nodes.getD a default) (nodes.getD b default) < connectDist audio →
      (connectionEdges nodes audio).countP (joinsPair a b) = 1 ∧
      (a, b, edgeAlpha (nodeDist (nodes.getD a default) (nodes.getD b default)) audio) ∈
        connectionEdges nodes audio ∧
      0 < edgeAlpha (nodeDist (nodes.getD a default) (nodes.getD b default)) audio) ∧
    (connectDist audio ≤ nodeDist (nodes.getD a default) (nodes.getD b default) →
      (connectionEdges nodes audio).countP (joinsPair a b) = 0)) ∧
    edgeAlpha 0 audio = 100 ∧
    edgeAlpha (connectDist audio) audio = 0 := by
  have hcd : 0 < connectDist audio := by
    unfold connectDist
    have := mul_nonneg haudio (by norm_num : (0 : ℝ) ≤ 100)
    linarith
  refine ⟨⟨?_, ?_⟩, ?_, ?_⟩
  · intro hdlt
    refine ⟨?_, ?_, ?_⟩
    · unfold connectionEdges
      refine countP_filterMap_eq_one _ (joinsPair a b) (a, b)
        (a, b, edgeAlpha (nodeDist (nodes.getD a default) (nodes.getD b default)) audio)
        ?_ (by simp [joinsPair]) (pairIndices nodes.length) (pairIndices_nodup _)
        (mem_pairIndices.mpr ⟨hab, hbn⟩) ?_
      · show (if nodeDist (nodes.getD a default) (nodes.getD b default) < connectDist audio
            then some ((a : ℕ), (b : ℕ),
              edgeAlpha (nodeDist (nodes.getD a default) (nodes.getD b default)) audio)
            else none) =
          some (a, b, edgeAlpha (nodeDist (nodes.getD a default) (nodes.getD b default)) audio)
        rw [if_pos hdlt]
      · intro ij hij hne y hfy
        obtain ⟨h12, _⟩ := mem_pairIndices.mp hij
        split at hfy
        · injection hfy with hy
          subst hy
          exact joinsPair_eq_false hab h12 hne
        · cases hfy
    · unfold connectionEdges
      refine List.mem_filterMap.mpr ⟨(a, b), mem_pairIndices.mpr ⟨hab, hbn⟩, ?_⟩
      rw [if_pos hdlt]
    · have h1 : nodeDist (nodes.getD a default) (nodes.getD b default) / connectDist audio < 1 :=
        (div_lt_one hcd).mpr hdlt
      unfold edgeAlpha mapRange
      simp only [sub_zero, zero_sub]
      linarith [h1]
  · intro hge
    unfold connectionEdges
    apply countP_filterMap_eq_zero
    intro ij hij y hfy
    obtain ⟨h12, _⟩ := mem_pairIndices.mp hij
    split at hfy
    · rename_i hlt
      injection hfy with hy
      subst hy
      by_cases he : ij = (a, b)
      · subst he
        exact absurd hlt (not_lt.mpr hge)
      · exact joinsPair_eq_false hab h12 he
    · cases hfy
  · unfold edgeAlpha mapRange
    simp
  · unfold edgeAlpha mapRange
    rw [sub_zero, div_self hcd.ne']
    norm_num

/-- C9 witness: two nodes at `(0,0)` and `(3,4)` (distance 5) with energy 0. -/
theorem graph_mode_connectivity_witness :
    0 < 1 ∧ 1 < twoNodes.length ∧ (0 : ℝ) ≤ 0 ∧
    (((nodeDist (twoNodes.getD 0 default) (twoNodes.getD 1 default) < connectDist 0 →
      (connectionEdges twoNodes 0).countP (joinsPair 0 1) = 1 ∧
      (0, 1, edgeAlpha (nodeDist (twoNodes.getD 0 default) (twoNodes.getD 1 default)) 0) ∈
        connectionEdges twoNodes 0 ∧
      0 < edgeAlpha (nodeDist (twoNodes.getD 0 default) (twoNodes.getD 1 default)) 0) ∧
    (connectDist 0 ≤ nodeDist (twoNodes.getD 0 default) (twoNodes.getD 1 default) →
      (connectionEdges twoNodes 0).countP (joinsPair 0 1) = 0)) ∧
    edgeAlpha 0 0 = 100 ∧
    edgeAlpha (connectDist 0) 0 = 0) := by
  have hlen : 1 < twoNodes.length := by simp [twoNodes]
  exact ⟨by norm_num, hlen, le_refl 0,
    graph_mode_connectivity twoNodes 0 0 1 (by norm_num) hlen (le_refl 0)⟩
